import Mathlib

/-!
Verification development for the website-access-request Apps Script repository.

The source consists of four request handlers over a spreadsheet store:
  * gsheet_gappscriptcode_pin_list.js      (PIN validation endpoint, robust sheet detection)
  * gsheet_gappscriptcode_access_requests.js (access-request logging endpoint plus an
    embedded second URL-logging doPost variant at the end of the file)
  * unnamed/part_000                        (URL-logging doPost variant)
  * unnamed/part_001                        (plain PIN validation doPost variant)

Cells of the spreadsheet store are modelled as display strings (the scripts read them
with getDisplayValues or immediately convert with toString). Host primitives that
cannot be translated (Date parsing, Utilities.formatDate, the current clock) are
passed in as explicit function parameters.
-/

set_option maxRecDepth 4000

/-! ## JavaScript string primitives -/

/-- Whitespace characters removed by JavaScript String.prototype.trim
(restricted to the ASCII whitespace occurring in this code base). -/
def isJsWs (c : Char) : Bool :=
  c = ' ' || c = '\t' || c = '\n' || c = '\r'

/-- Trim on character lists: drop leading and trailing whitespace. -/
def trimChars (l : List Char) : List Char :=
  ((l.dropWhile isJsWs).reverse.dropWhile isJsWs).reverse

/-- JavaScript `s.trim()`. -/
def jsTrim (s : String) : String :=
  ⟨trimChars s.data⟩

/-- JavaScript `s.toLowerCase()` (ASCII). -/
def lowerStr (s : String) : String :=
  ⟨s.data.map Char.toLower⟩

/-- JavaScript `s.toUpperCase()` (ASCII). -/
def upperStr (s : String) : String :=
  ⟨s.data.map Char.toUpper⟩

/-- JavaScript `x || d` for an optional string field of a parsed JSON
payload: a missing field or an empty string falls back to the default. -/
def jsOr (o : Option String) (d : String) : String :=
  match o with
  | some s => if s = "" then d else s
  | none => d

/-- JavaScript `s || d` for a string already in hand. -/
def jsOrS (s d : String) : String :=
  if s = "" then d else s

/-- Consume the exact token `pre` from the front of `l`, returning the rest. -/
def eatToken : List Char → List Char → Option (List Char)
  | [], l => some l
  | _ :: _, [] => none
  | p :: ps, c :: cs => if p = c then eatToken ps cs else none

/-- Does `hay` contain `needle` as a contiguous substring (JavaScript `includes`)? -/
def listContains (hay needle : List Char) : Bool :=
  match hay with
  | [] => needle.isEmpty
  | _ :: t => (eatToken needle hay).isSome || listContains t needle

/-- JavaScript `hay.includes(needle)`. -/
def sIncludes (hay needle : String) : Bool :=
  listContains hay.data needle.data

/-! ## Regular-expression shapes used by the scripts -/

/-- Consume exactly `n` decimal digits. -/
def eatDigitsN : Nat → List Char → Option (List Char)
  | 0, l => some l
  | _ + 1, [] => none
  | n + 1, c :: cs => if c.isDigit then eatDigitsN n cs else none

/-- Consume one or two decimal digits, greedily (matches the regex `\d{1,2}`
followed by a non-digit; greedy and backtracking agree here because the
following pattern character is never a digit). -/
def eatDigits1or2 : List Char → Option (List Char)
  | [] => none
  | c :: cs =>
    if c.isDigit then
      match cs with
      | d :: ds => if d.isDigit then some ds else some cs
      | [] => some []
    else none

/-- Try each candidate token in order, consuming the first that matches. -/
def eatOneOf (cands : List String) (l : List Char) : Option (List Char) :=
  match cands with
  | [] => none
  | s :: rest =>
    match eatToken s.data l with
    | some r => some r
    | none => eatOneOf rest l

def dayNames : List String :=
  ["Monday", "Tuesday", "Wednesday", "Thursday", "Friday", "Saturday", "Sunday"]

def monthNames : List String :=
  ["Jan", "Feb", "Mar", "Apr", "May", "Jun", "Jul", "Aug", "Sep", "Oct", "Nov", "Dec"]

/-- Structure of the readable-timestamp regex
`^(Monday|...|Sunday), (Jan|...|Dec) \d{2}, \d{4} \d{1,2}:\d{2} (AM|PM)$`
from isReadableTimestampFormat (access_requests.js lines 1381-1385). -/
def readableStructure (l : List Char) : Option (List Char) :=
  (eatOneOf dayNames l).bind fun r =>
  (eatToken (", ").data r).bind fun r =>
  (eatOneOf monthNames r).bind fun r =>
  (eatToken (" ").data r).bind fun r =>
  (eatDigitsN 2 r).bind fun r =>
  (eatToken (", ").data r).bind fun r =>
  (eatDigitsN 4 r).bind fun r =>
  (eatToken (" ").data r).bind fun r =>
  (eatDigits1or2 r).bind fun r =>
  (eatToken (":").data r).bind fun r =>
  (eatDigitsN 2 r).bind fun r =>
  (eatToken (" ").data r).bind fun r =>
  eatOneOf ["AM", "PM"] r

/-- isReadableTimestampFormat from access_requests.js: tests the
"Friday, Jun 06, 2025 10:30 AM" pattern. -/
def isReadableTimestampFormat (s : String) : Bool :=
  match readableStructure s.data with
  | some [] => true
  | _ => false

/-- Optional piece of a pattern: consume it if it matches, else leave input as is. -/
def eatOpt (f : List Char → Option (List Char)) (l : List Char) : List Char :=
  match f l with
  | some r => r
  | none => l

/-- Structure of the ISO-8601 regex
`^\d{4}-\d{2}-\d{2}T\d{2}:\d{2}:\d{2}(\.\d{3})?Z?$`
from detectAndFixTimestamp (access_requests.js line 1339). -/
def isoStructure (l : List Char) : Option (List Char) :=
  (eatDigitsN 4 l).bind fun r =>
  (eatToken ("-").data r).bind fun r =>
  (eatDigitsN 2 r).bind fun r =>
  (eatToken ("-").data r).bind fun r =>
  (eatDigitsN 2 r).bind fun r =>
  (eatToken ("T").data r).bind fun r =>
  (eatDigitsN 2 r).bind fun r =>
  (eatToken (":").data r).bind fun r =>
  (eatDigitsN 2 r).bind fun r =>
  (eatToken (":").data r).bind fun r =>
  (eatDigitsN 2 r).bind fun r =>
  (some (eatOpt (fun l => (eatToken (".").data l).bind (eatDigitsN 3)) r)).bind fun r =>
  some (eatOpt (eatToken ("Z").data) r)

/-- Does the string match the ISO-8601 shape tested by detectAndFixTimestamp? -/
def isIso8601Shape (s : String) : Bool :=
  match isoStructure s.data with
  | some [] => true
  | _ => false

/-! ## JavaScript numeric conversion (restricted model)

JavaScript `Number(s)` (used by `isNaN(value) / value > 1000000000` in
detectAndFixTimestamp) is modelled for whitespace-trimmed unsigned decimal
integer literals, which covers the Unix-epoch strings the branch is written
for; other numeric syntaxes are treated as NaN. -/

def digitToNat (c : Char) : Nat := c.toNat - 48

def parseDigitsNat (l : List Char) : Nat :=
  l.foldl (fun a c => 10 * a + digitToNat c) 0

/-- JavaScript `Number(s)` on a string: empty (after trimming) is 0,
digit strings are their value, everything else is NaN (`none`). -/
def jsNumber (s : String) : Option Int :=
  let t := jsTrim s
  if t = "" then some 0
  else if t.data.all Char.isDigit then some (parseDigitsNat t.data : Int)
  else none

/-! ## detectAndFixTimestamp (access_requests.js lines 1321-1374) -/

/-- Host context for the timestamp-repair function: `parse` is
`new Date(s).getTime()` (`none` for an Invalid Date), `fmt` is
`Utilities.formatDate(date, tz, "EEEE, MMM dd, yyyy hh:mm a")`, and
`nowReadable` is `createReadableTimestamp()`. -/
structure TsCtx where
  parse : String → Option Int
  fmt : Int → String
  nowReadable : String

/-- Largest millisecond magnitude representable by a JavaScript Date;
beyond it `new Date(ms)` is an Invalid Date. -/
def maxDateMs : Nat := 8640000000000000

/-- Date-selection portion of detectAndFixTimestamp: try ISO-8601, then the
Unix-epoch branch (seconds vs milliseconds decided by the raw string length),
then a generic `new Date(stringValue)` parse. Returns the resolved epoch
milliseconds or `none` when nothing parses. -/
def tsDateOpt (ctx : TsCtx) (value stringValue : String) : Option Int :=
  if isIso8601Shape stringValue then ctx.parse stringValue
  else
    match jsNumber value with
    | some n =>
      if 1000000000 < n then
        let ms := n * (if value.length = 10 then 1000 else 1)
        if ms.natAbs ≤ maxDateMs then some ms else none
      else ctx.parse stringValue
    | none => ctx.parse stringValue

/-- detectAndFixTimestamp: empty input yields a fresh readable timestamp;
input already in readable format is returned (trimmed); otherwise the value
is parsed and reformatted, and unparsable input is returned trimmed. -/
def detectAndFixTimestamp (ctx : TsCtx) (value : String) : String :=
  if value = "" then ctx.nowReadable
  else
    let stringValue := jsTrim value
    if isReadableTimestampFormat stringValue then stringValue
    else
      match tsDateOpt ctx value stringValue with
      | none => stringValue
      | some t => ctx.fmt t

/-! ## PIN comparison loops -/

/-- Comparison loop shared by unnamed/part_000 (lines 49-59) and
unnamed/part_001 (lines 39-49): each stored cell is trimmed, skipped when the
trimmed value is empty, and accepted on exact equality with the trimmed
candidate. -/
def pinLoopInline (pinList : List String) (pin : String) : Bool :=
  let inputPin := jsTrim pin
  pinList.any fun cell =>
    let storedPin := jsTrim cell
    storedPin != "" && storedPin == inputPin

/-- Comparison loop of validatePin (access_requests.js lines 1034-1043):
cells that are empty before trimming are skipped, and the trimmed cell is
accepted on exact equality only. -/
def validatePinLoop (pinList : List String) (pin : String) : Bool :=
  let inputPin := jsTrim pin
  pinList.any fun cell =>
    cell != "" && jsTrim cell == inputPin

/-- Comparison loop of validatePinFromSheet (pin_list.js lines 131-154):
cells that are empty before trimming are skipped; the trimmed cell is
accepted on exact equality, then on case-insensitive equality. -/
def validatePinFromSheetLoop (pinList : List String) (pin : String) : Bool :=
  let inputPin := jsTrim pin
  pinList.any fun cell =>
    cell != "" &&
      (jsTrim cell == inputPin || upperStr (jsTrim cell) == upperStr inputPin)

/-- Spec-side predicate (spec.md section 8, first testable property):
validation should hold exactly when the trimmed candidate equals some trimmed
stored value, case-sensitively or case-insensitively. -/
def specPinValid (c : String) (L : List String) : Prop :=
  ∃ p ∈ L, jsTrim c = jsTrim p ∨ upperStr (jsTrim c) = upperStr (jsTrim p)

instance (c : String) (L : List String) : Decidable (specPinValid c L) := by
  unfold specPinValid; infer_instance

/-! ## Spreadsheet model

A sheet is a named grid of display strings; a spreadsheet is a list of sheets
in tab order. Grids carry no trailing empty cells or rows, matching
getLastRow/getLastColumn, which report the extent of actual content. Reads
outside the grid yield the empty string, as getValues pads missing cells. -/

structure SheetT where
  name : String
  grid : List (List String)
deriving DecidableEq

/-- getLastColumn: the widest used row of the grid. -/
def maxRowLen (rows : List (List String)) : Nat :=
  rows.foldr (fun r m => max r.length m) 0

/-- Read `k` cells from the front of a row, padding with empty strings the
way Range.getValues does for cells beyond the content. -/
def padTake (l : List String) (k : Nat) : List String :=
  l.take k ++ List.replicate (k - l.length) ""

/-- getSheetByName: first sheet with the exact name. -/
def getSheetByName (sheets : List SheetT) (nm : String) : Option SheetT :=
  sheets.find? fun s => s.name == nm

/-! ## Robust PIN sheet detection (pin_list.js lines 260-480) -/

/-- Candidate PIN sheet names of findPinSheet (pin_list.js lines 267-291). -/
def possiblePinNames : List String :=
  ["PINs", "PIN", "Pins", "Pin", "Sheet1", "pins", "pin",
   "Password", "Passwords", "password", "passwords",
   "Access Codes", "AccessCodes", "access_codes", "access codes",
   "Codes", "codes", "Auth", "auth", "Authentication", "Key", "Keys", "keys"]

/-- Regex `^\d{3,8}$`: 3-8 digit numeric code. -/
def pinShapeDigits (s : String) : Bool :=
  s.data.all Char.isDigit && decide (3 ≤ s.length) && decide (s.length ≤ 8)

/-- Regex `^[A-Za-z0-9]{4,12}$`: 4-12 character alphanumeric code. -/
def pinShapeAlnum (s : String) : Bool :=
  s.data.all Char.isAlphanum && decide (4 ≤ s.length) && decide (s.length ≤ 12)

/-- Regex `^\d{4}-\d{4}$`. -/
def pinShapeDash (s : String) : Bool :=
  match (eatDigitsN 4 s.data).bind (eatToken ("-").data) |>.bind (eatDigitsN 4) with
  | some [] => true
  | _ => false

def isAsciiUpper (c : Char) : Bool := 'A' ≤ c && c ≤ 'Z'

/-- Regex `^[A-Z]{2,4}\d{2,6}$`: letters followed by digits. -/
def pinShapeLetterDigit (s : String) : Bool :=
  let us := s.data.takeWhile isAsciiUpper
  let ds := s.data.drop us.length
  ds.all Char.isDigit &&
    decide (2 ≤ us.length) && decide (us.length ≤ 4) &&
    decide (2 ≤ ds.length) && decide (ds.length ≤ 6)

/-- One of the four PIN-like value shapes tested by isPinSheet
(pin_list.js lines 378-381). -/
def pinLikePattern (s : String) : Bool :=
  pinShapeDigits s || pinShapeAlnum s || pinShapeDash s || pinShapeLetterDigit s

/-- PIN-related substrings looked for in header text (pin_list.js lines 349-351). -/
def pinHeaderHit (headerText : String) : Bool :=
  sIncludes headerText "pin" || sIncludes headerText "password" ||
  sIncludes headerText "code" || sIncludes headerText "auth" ||
  sIncludes headerText "key" || sIncludes headerText "access"

/-- isPinSheet (pin_list.js lines 338-400): a sheet qualifies when one of its
first three rows has PIN-like header text in its first three cells, or when at
least 60 percent of up to ten sampled column-A values (trying data starting at
row 1 and at row 2) look like PIN codes. The 60 percent threshold
`pinLikeCount >= validDataCount * 0.6` is modelled as the exact rational
comparison, which agrees with the double arithmetic on the reachable counts. -/
def isPinSheet (sheet : SheetT) : Bool :=
  let lastRow := sheet.grid.length
  if lastRow < 1 then false
  else
    let lastCol := maxRowLen sheet.grid
    let headerHit := (List.range (min 3 lastRow)).any fun i =>
      decide (1 ≤ lastCol) &&
        let possibleHeaders := padTake ((sheet.grid.drop i).headD []) (min lastCol 3)
        pinHeaderHit (lowerStr (String.intercalate "|" possibleHeaders))
    if headerHit then true
    else
      let maxDataRowsToCheck := min 10 lastRow
      (List.range (min 2 lastRow)).any fun a =>
        let startAttempt := a + 1
        let cnt := min maxDataRowsToCheck (lastRow - startAttempt + 1)
        let data := ((sheet.grid.drop (startAttempt - 1)).take cnt).map fun r => r.getD 0 ""
        let validData := data.filter fun v => jsTrim v != ""
        let pinLike := validData.filter fun v => pinLikePattern (jsTrim v)
        decide (0 < validData.length) && decide (3 * validData.length ≤ 5 * pinLike.length)

/-- Exact-name pass of findPinSheet (pin_list.js lines 297-306). -/
def findPinSheetExact (sheets : List SheetT) : List String → Option SheetT
  | [] => none
  | nm :: rest =>
    match getSheetByName sheets nm with
    | some s => if isPinSheet s then some s else findPinSheetExact sheets rest
    | none => findPinSheetExact sheets rest

/-- Case-insensitive pass of findPinSheet (pin_list.js lines 309-319):
outer loop over sheets, inner loop over candidate names. -/
def findPinSheetCi (names : List String) : List SheetT → Option SheetT
  | [] => none
  | s :: rest =>
    if (names.any fun nm => lowerStr s.name == lowerStr nm) && isPinSheet s then some s
    else findPinSheetCi names rest

/-- findPinSheet (pin_list.js lines 265-331): exact name match, then
case-insensitive name match, then content analysis over all sheets. -/
def findPinSheet (sheets : List SheetT) : Option SheetT :=
  match findPinSheetExact sheets possiblePinNames with
  | some s => some s
  | none =>
    match findPinSheetCi possiblePinNames sheets with
    | some s => some s
    | none => sheets.find? fun s => isPinSheet s

/-- The default PIN sheet created by getOrCreatePinSheet
(pin_list.js lines 412-424): header plus three example PINs. -/
def defaultPinSheet : SheetT :=
  { name := "PINs", grid := [["PIN"], ["123456"], ["789012"], ["000000"]] }

/-- getOrCreatePinSheet (pin_list.js lines 407-434): reuse a detected PIN
sheet, otherwise insert the default sheet (insertSheet appends a tab; the
model treats insertion as always succeeding). -/
def getOrCreatePinSheet (sheets : List SheetT) : SheetT × List SheetT :=
  match findPinSheet sheets with
  | some s => (s, sheets)
  | none => (defaultPinSheet, sheets ++ [defaultPinSheet])

/-- Result of analyzePinSheetStructure (pin_list.js lines 441-480). -/
structure PinSheetStructure where
  startRow : Nat
  endRow : Nat
  dataColumn : Nat
  hasHeader : Bool
deriving DecidableEq

/-- Header words recognised by analyzePinSheetStructure (lines 458-461). -/
def analyzeHeaderHit (headerText : String) : Bool :=
  headerText == "pin" || headerText == "pins" || headerText == "password" ||
  headerText == "code" || headerText == "auth" || headerText == "key" ||
  sIncludes headerText "pin" || sIncludes headerText "code"

/-- analyzePinSheetStructure: data starts at row 2 when cell A1 is a
PIN-like header word, at row 1 otherwise; a header with no data rows after
it is reset to a headerless row-1 start. -/
def analyzePinSheetStructure (sheet : SheetT) : PinSheetStructure :=
  let lastRow := sheet.grid.length
  let base : PinSheetStructure :=
    { startRow := 1, endRow := lastRow, dataColumn := 1, hasHeader := false }
  if lastRow < 1 then base
  else
    let firstRowValue := (sheet.grid.headD []).getD 0 ""
    let r1 :=
      if firstRowValue != "" && analyzeHeaderHit (lowerStr (jsTrim firstRowValue)) then
        { base with hasHeader := true, startRow := 2 }
      else base
    if lastRow < r1.startRow then { r1 with startRow := 1, hasHeader := false } else r1

/-! ## validatePinFromSheet (pin_list.js lines 91-169) -/

/-- Outcome of validatePinFromSheet: validity flag, user-facing message, and
the (possibly mutated) spreadsheet. -/
structure PinValidationResult where
  isValid : Bool
  message : String
  sheets : List SheetT
deriving DecidableEq

/-- validatePinFromSheet: resolve or create the PIN sheet, analyze its
structure, read the data range of column A, and run the exact-then-
case-insensitive comparison loop. (The sheet-creation-failed and caught-
exception branches both yield isValid false; creation always succeeds in the
model, and store faults are covered by the validatePin model below.) -/
def validatePinFromSheet (pin : String) (sheets : List SheetT) : PinValidationResult :=
  let found := getOrCreatePinSheet sheets
  let sheet := found.1
  let sheets1 := found.2
  let structure0 := analyzePinSheetStructure sheet
  if structure0.endRow < structure0.startRow then
    { isValid := false, message := "No PIN data available.", sheets := sheets1 }
  else
    let pinList :=
      ((sheet.grid.drop (structure0.startRow - 1)).take
        (structure0.endRow - structure0.startRow + 1)).map fun r =>
          r.getD (structure0.dataColumn - 1) ""
    if validatePinFromSheetLoop pinList pin then
      { isValid := true, message := "PIN validated successfully.", sheets := sheets1 }
    else
      { isValid := false,
        message := "Invalid PIN. Please check your PIN and try again.",
        sheets := sheets1 }

/-! ## validatePin (access_requests.js lines 973-1052) -/

/-- Header substrings recognised by validatePin (lines 1008-1011). -/
def validatePinHeaderHit (headerText : String) : Bool :=
  sIncludes headerText "pin" || sIncludes headerText "password" ||
  sIncludes headerText "code" || sIncludes headerText "auth" ||
  headerText == "pin" || headerText == "pins"

/-- validatePin: empty PIN and any caught store-access error yield false;
otherwise the PIN sheet is located with findPinSheet, an optional header row
is skipped, and the exact-match loop runs over column A. -/
def validatePin (access : Except String (List SheetT)) (pin : String) : Bool :=
  if pin = "" then false
  else
    match access with
    | .error _ => false
    | .ok sheets =>
      match findPinSheet sheets with
      | none => false
      | some pinSheet =>
        let lastRow := pinSheet.grid.length
        if lastRow < 1 then false
        else
          let firstRowValue := (pinSheet.grid.headD []).getD 0 ""
          let startRow :=
            if firstRowValue != "" && validatePinHeaderHit (lowerStr firstRowValue) then 2
            else 1
          if lastRow < startRow then false
          else
            let pinList :=
              ((pinSheet.grid.drop (startRow - 1)).take (lastRow - startRow + 1)).map
                fun r => r.getD 0 ""
            validatePinLoop pinList pin

/-! ## URL-logging doPost of unnamed/part_000 -/

instance {ε α : Type} [DecidableEq ε] [DecidableEq α] : DecidableEq (Except ε α) :=
  fun x y =>
    match x, y with
    | .error a, .error b =>
      if h : a = b then isTrue (by rw [h]) else isFalse (by simp [h])
    | .ok a, .ok b =>
      if h : a = b then isTrue (by rw [h]) else isFalse (by simp [h])
    | .error _, .ok _ => isFalse (by simp)
    | .ok _, .error _ => isFalse (by simp)

/-- JSON payload fields of the URL-logging POST body. -/
structure UrlLogPayload where
  url : Option String
  title : Option String
  timestamp : Option String
  userEmail : Option String
  userId : Option String
  pin : Option String
deriving DecidableEq

/-- An incoming request: CORS preflight flag (OPTIONS method or absent
postData), and the JSON.parse outcome of the body. -/
structure UrlLogRequest where
  isPreflight : Bool
  body : Except String UrlLogPayload
deriving DecidableEq

/-- State visible to the part_000 handler: whether the access spreadsheet has
a tab named Sheet1, that tab's full grid, and the outcome of accessing the
PIN sheet (`error` for a thrown store fault, `ok none` for a missing PINs
tab, `ok (some grid)` for its grid). -/
structure UrlLogState where
  sheetPresent : Bool
  rows : List (List String)
  pinAccess : Except String (Option (List (List String)))
deriving DecidableEq

/-- The five possible handler outcomes. -/
inductive UrlLogResponse
  | cors
  | success
  | duplicate
  | failure
  | error (msg : String)
deriving DecidableEq

/-- The PIN list read from the PIN sheet grid: rows 2 and below of column A
(part_000 lines 43-44); a sheet with at most one row yields the empty list. -/
def pinListOfGrid (grid : List (List String)) : List String :=
  if 1 < grid.length then (grid.drop 1).map fun r => r.getD 0 "" else []

/-- isValidPin as computed by part_000 lines 33-69: false when the store
access threw or the PINs tab is missing, otherwise the inline exact-match
loop over the stored list. -/
def part0IsValidPin (acc : Except String (Option (List (List String)))) (pin : String) : Bool :=
  match acc with
  | .error _ => false
  | .ok none => false
  | .ok (some grid) => pinLoopInline (pinListOfGrid grid) pin

/-- The 5-minute cooldown in milliseconds. -/
def cooldownMs : Int := 300000

/-- Duplicate scan of part_000 lines 78-96 (identical in the second doPost
variant, access_requests.js lines 1564-1582): walk the data rows from newest
to oldest (the argument list is the data rows reversed); cell 0 is compared
with the URL and cell 1 is parsed as the row time; blank or unparsable times
are skipped; the walk stops at the first row older than the cooldown. A NaN
current time (`none`) never triggers the stop. -/
def dedupScan (parse : String → Option Int) (current : Option Int) (url : String) :
    List (List String) → Bool
  | [] => false
  | row :: rest =>
    let rowUrl := row.getD 0 ""
    let rowTimeStr := row.getD 1 ""
    if rowTimeStr = "" then dedupScan parse current url rest
    else
      match parse rowTimeStr with
      | none => dedupScan parse current url rest
      | some rt =>
        if (match current with
            | some ct => decide (cooldownMs < ct - rt)
            | none => false) then false
        else if rowUrl = url then true
        else dedupScan parse current url rest

/-- Core of the part_000 doPost after the Sheet1 check: apply payload
defaults, validate the PIN, run the duplicate scan (valid PINs only), append
the row `[url, title, timestamp, userEmail, userId, pin, status]`, and pick
the response. -/
def urlLoggerCore (parse : String → Option Int) (nowIso : String)
    (st : UrlLogState) (data : UrlLogPayload) : UrlLogResponse × UrlLogState :=
  let url := jsOr data.url "N/A"
  let title := jsOr data.title "Untitled Page"
  let timestamp := jsOr data.timestamp nowIso
  let userEmail := jsOr data.userEmail "Unknown"
  let userId := jsOr data.userId "Unknown"
  let pin := jsOr data.pin "Not Provided"
  let isValidPin := part0IsValidPin st.pinAccess pin
  let currentTime := parse timestamp
  let isDuplicate :=
    if isValidPin then dedupScan parse currentTime url (st.rows.drop 1).reverse else false
  let status :=
    if isValidPin then
      if isDuplicate then "Duplicate (Valid PIN)" else "Success (Valid PIN)"
    else "Failed (Invalid PIN)"
  let newRow := [url, title, timestamp, userEmail, userId, pin, status]
  let st' := { st with rows := st.rows ++ [newRow] }
  if isValidPin then
    if isDuplicate then (.duplicate, st') else (.success, st')
  else (.failure, st')

/-- doPost of unnamed/part_000: preflight short-circuits to the CORS
response; a JSON.parse failure or a missing Sheet1 is caught by the
top-level catch and surfaced as the error response; otherwise the core runs. -/
def doPostUrlLogger (parse : String → Option Int) (nowIso : String)
    (st : UrlLogState) (req : UrlLogRequest) : UrlLogResponse × UrlLogState :=
  if req.isPreflight then (.cors, st)
  else
    match req.body with
    | .error e => (.error e, st)
    | .ok data =>
      if st.sheetPresent then urlLoggerCore parse nowIso st data
      else (.error "Sheet named Sheet1 not found.", st)

/-- JSON body of each part_000 response (key-value pairs in output order);
the preflight response has an empty text body. -/
def urlLogBody : UrlLogResponse → List (String × String)
  | .cors => []
  | .success => [("status", "success")]
  | .duplicate => [("status", "duplicate"),
                   ("message", "URL already requested within last 5 minutes.")]
  | .failure => [("status", "failure"), ("message", "Invalid PIN/Password")]
  | .error m => [("status", "error"), ("message", m)]

/-- The four JSON body shapes the spec allows for a non-preflight POST. -/
def isCanonicalPostBody (b : List (String × String)) : Prop :=
  b = [("status", "success")] ∨
  (∃ m, b = [("status", "duplicate"), ("message", m)]) ∨
  b = [("status", "failure"), ("message", "Invalid PIN/Password")] ∨
  (∃ m, b = [("status", "error"), ("message", m)])

/-! ## Second URL-logging doPost variant (access_requests.js lines 1472-1617) -/

/-- Expected header list of the second doPost variant (line 1505). -/
def variantHeaders : List String :=
  ["timeStamp", "userEmail", "websiteTitle", "websiteRequested", "pinNumber", "pinStatus"]

/-- Case-insensitive, trimmed, element-wise header comparison of lines
1506-1508 (the read range is always six cells wide, so the length test of
the source always passes). -/
def headersMatchCi (firstRowValues expected : List String) : Bool :=
  (firstRowValues.zip expected).all fun p => lowerStr (jsTrim p.1) == lowerStr p.2

/-- doPost variant of access_requests.js lines 1472-1617: same shape as
part_000 but it formats the timestamp through `fmtPst` (formatDate in the
configured time zone over the parsed date), repairs a six-column header row
by inserting a new row 1 on mismatch, and appends
`[timestamp, userEmail, title, url, pin, status]`. -/
def doPostUrlLoggerB (parse : String → Option Int) (fmtPst : Option Int → String)
    (nowIso : String) (st : UrlLogState) (req : UrlLogRequest) :
    UrlLogResponse × UrlLogState :=
  if req.isPreflight then (.cors, st)
  else
    match req.body with
    | .error e => (.error e, st)
    | .ok data =>
      if st.sheetPresent then
        let url := jsOr data.url "N/A"
        let title := jsOr data.title "Untitled Page"
        let rawTimestamp := jsOr data.timestamp nowIso
        let tsParsed := parse rawTimestamp
        let timestamp := fmtPst tsParsed
        let userEmail := jsOr data.userEmail "Unknown"
        let pin := jsOr data.pin "Not Provided"
        let firstRowValues := padTake (st.rows.headD []) 6
        let rows1 :=
          if headersMatchCi firstRowValues variantHeaders then st.rows
          else variantHeaders :: st.rows
        let isValidPin := part0IsValidPin st.pinAccess pin
        let isDuplicate :=
          if isValidPin then dedupScan parse tsParsed url (rows1.drop 1).reverse else false
        let status := if isValidPin then "Valid PIN" else "Invalid PIN"
        let newRow := [timestamp, userEmail, title, url, pin, status]
        let st' := { st with rows := rows1 ++ [newRow] }
        if isValidPin then
          if isDuplicate then (.duplicate, st') else (.success, st')
        else (.failure, st')
      else (.error "Sheet named Sheet1 not found.", st)

/-! ## logAccessRequest (access_requests.js lines 240-351) -/

/-- Canonical expected header list of the access-request sheet (line 251). -/
def accessExpectedHeaders : List String :=
  ["Timestamp", "PIN Number", "User Email", "Title", "URL",
   "Request Status", "Media Type", "Access Link"]

/-- Request data handed to logAccessRequest by doPost (lines 203-210);
fields are the already-defaulted strings of the parsed payload. -/
structure AccessRequestData where
  url : String
  title : String
  timestamp : String
  userEmail : String
  pin : String
  isPinValid : Bool
deriving DecidableEq

/-- autoFixTimestampFormats (lines 1252-1314): rewrite column A of every
data row (rows 2 and below) through detectAndFixTimestamp; the header row is
untouched. -/
def autoFixTimestampFormats (ctx : TsCtx) (rows : List (List String)) :
    List (List String) :=
  match rows with
  | [] => []
  | h :: t => h :: t.map fun r => detectAndFixTimestamp ctx (r.getD 0 "") :: r.drop 1

/-- logAccessRequest: read the current first-row headers (at most eight
cells), rewrite row 1 to the canonical headers when they mismatch or when
content extends beyond column H (clearing the extra columns of every row),
append the fixed-order data row, and run the timestamp repair pass. The
source detects a mismatch by a length test plus an element-wise loop, which
together are list inequality. -/
def logAccessRequest (ctx : TsCtx) (rows : List (List String))
    (rd : AccessRequestData) : List (List String) :=
  let lastRow := rows.length
  let lastCol := maxRowLen rows
  let currentHeaders : List String :=
    if 1 ≤ lastRow && 0 < lastCol then padTake (rows.headD []) (min lastCol 8) else []
  let headersNeedUpdate := currentHeaders != accessExpectedHeaders || decide (8 < lastCol)
  let rows1 :=
    if headersNeedUpdate then
      let cleared := if 8 < lastCol then rows.map (fun r => r.take 8) else rows
      match cleared with
      | [] => [accessExpectedHeaders]
      | _ :: t => accessExpectedHeaders :: t
    else rows
  let rowData :=
    [jsOrS rd.timestamp ctx.nowReadable, jsOrS rd.pin "NO PIN",
     rd.userEmail, rd.title, rd.url, "PENDING", "PENDING", "PENDING"]
  autoFixTimestampFormats ctx (rows1 ++ [rowData])

/-! ## doPost of pin_list.js (lines 45-84) -/

/-- Request for the PIN-validation endpoint: preflight flag and the
JSON.parse outcome of the body (only the pin field is read). -/
structure PinListRequest where
  isPreflight : Bool
  body : Except String (Option String)
deriving DecidableEq

/-- doPost of pin_list.js: preflight yields the bare CORS text (empty body
here); a JSON.parse failure is caught and answered with an
error/message/timestamp body; otherwise the response carries status
(success or error), the validation message, the echoed pin, and a fresh
timestamp. -/
def pinListDoPost (nowIso : String) (sheets : List SheetT) (req : PinListRequest) :
    List (String × String) :=
  if req.isPreflight then []
  else
    match req.body with
    | .error e =>
      [("status", "error"), ("message", "Internal server error: " ++ e),
       ("timestamp", nowIso)]
    | .ok pinOpt =>
      let pin := jsOr pinOpt ""
      let vr := validatePinFromSheet pin sheets
      [("status", if vr.isValid then "success" else "error"),
       ("message", vr.message), ("pin", pin), ("timestamp", nowIso)]

/-! ## Spec-side duplicate predicate and demo fixtures -/

/-- Spec-side duplicate test (spec.md section 4.3 step 3 and the claim): a
submission is a duplicate when some prior record has the same URL and a
timestamp within the cooldown window of the submission timestamp. Records
are (url, timestamp-string) pairs. -/
def specDuplicateWithin (parse : String → Option Int)
    (priorRecords : List (String × String)) (url ts : String) : Bool :=
  priorRecords.any fun r =>
    r.1 == url &&
      match parse r.2, parse ts with
      | some t, some t0 => decide ((t0 - t).natAbs ≤ 300000)
      | _, _ => false

/-- Concrete stand-in for `new Date(s).getTime()` covering the two ISO
timestamps of the demo scenario ten seconds apart; every other string
(titles, emails) is an Invalid Date, as in JavaScript. -/
def demoParse (s : String) : Option Int :=
  if s = "2025-06-06T10:00:00Z" then some 0
  else if s = "2025-06-06T10:00:10Z" then some 10000
  else none

/-- Concrete timestamp context for closed evaluations: no generic string
parses, formatting is a fixed readable timestamp, and the clock renders the
same readable timestamp. -/
def tsCtx0 : TsCtx :=
  { parse := fun _ => none,
    fmt := fun _ => "Friday, Jun 06, 2025 10:30 AM",
    nowReadable := "Friday, Jun 06, 2025 10:30 AM" }

/-- PIN sheet grid used by the demo scenarios: a header and one PIN. -/
def demoPinGrid : List (List String) := [["PIN"], ["1234"]]

/-- Access-log header row as part_000 would see it on a prepared sheet. -/
def demoHeaderRow : List String :=
  ["URL", "Title", "Timestamp", "Email", "ID", "PIN", "Status"]

/-- First demo submission: valid PIN, URL logged at 10:00:00. -/
def demoPayload1 : UrlLogPayload :=
  { url := some "https://example.com", title := some "Example Site",
    timestamp := some "2025-06-06T10:00:00Z", userEmail := some "a@b.com",
    userId := some "u1", pin := some "1234" }

/-- Second demo submission: same URL ten seconds later, same valid PIN. -/
def demoPayload2 : UrlLogPayload :=
  { url := some "https://example.com", title := some "Example Site",
    timestamp := some "2025-06-06T10:00:10Z", userEmail := some "a@b.com",
    userId := some "u1", pin := some "1234" }

/-- Initial access-log state for the demo: Sheet1 present with only the
header row, PIN store reachable. -/
def demoState0 : UrlLogState :=
  { sheetPresent := true, rows := [demoHeaderRow], pinAccess := .ok (some demoPinGrid) }

/-- Fixtures for witness instantiations: an invalid-PIN submission. -/
def demoBadPayload : UrlLogPayload :=
  { demoPayload1 with pin := some "9999" }

/-- Demo ISO clock value. -/
def demoNowIso : String := "2025-06-06T10:00:00Z"

/-- A spreadsheet with no PIN-qualifying sheet (one empty tab). -/
def demoStoreNoPin : List SheetT := [{ name := "Data", grid := [] }]

/-- A spreadsheet whose PINs tab qualifies and holds one PIN. -/
def demoStoreWithPins : List SheetT := [{ name := "PINs", grid := [["PIN"], ["123456"]] }]

/-- Initial state for the second doPost variant demo: empty Sheet1. -/
def demoStateB : UrlLogState :=
  { sheetPresent := true, rows := [], pinAccess := .ok (some demoPinGrid) }

/-- Fixed PST formatting stand-in for the second doPost variant. -/
def demoFmtPst : Option Int → String := fun _ => "06/06/2025 10:00:00 AM"

/-- Access-request record for the round-trip witness. -/
def demoAccessRequestData : AccessRequestData :=
  { url := "https://example.com", title := "Ex",
    timestamp := "Friday, Jun 06, 2025 10:30 AM",
    userEmail := "a@b.com", pin := "1234", isPinValid := true }

/-- Executable version of the four canonical POST body shapes. -/
def isCanonicalPostBodyB (b : List (String × String)) : Bool :=
  match b with
  | [(k, s)] => k == "status" && s == "success"
  | [(k1, s), (k2, m)] =>
    k1 == "status" && k2 == "message" &&
      (s == "duplicate" || s == "error" ||
        (s == "failure" && m == "Invalid PIN/Password"))
  | _ => false

/-! ## Helper lemmas: trimming -/

theorem dropWhile_head_not (p : Char → Bool) (l : List Char) (c : Char) (cs : List Char)
    (h : l.dropWhile p = c :: cs) : p c = false := by
  induction l with
  | nil => simp [List.dropWhile] at h
  | cons a t ih =>
    rw [List.dropWhile_cons] at h
    by_cases hp : p a
    · exact ih (by simpa [hp] using h)
    · rw [if_neg hp] at h
      cases h
      exact Bool.eq_false_iff.mpr hp

theorem dropWhile_idem (p : Char → Bool) (l : List Char) :
    (l.dropWhile p).dropWhile p = l.dropWhile p := by
  cases h : l.dropWhile p with
  | nil => rfl
  | cons c cs =>
    have hc := dropWhile_head_not p l c cs h
    rw [List.dropWhile_cons, if_neg (by simp [hc])]

theorem dropWhile_append_ex (p : Char → Bool) (l : List Char) :
    ∃ d, l = d ++ l.dropWhile p := by
  induction l with
  | nil => exact ⟨[], rfl⟩
  | cons a t ih =>
    rw [List.dropWhile_cons]
    by_cases hp : p a
    · obtain ⟨d, hd⟩ := ih
      exact ⟨a :: d, by rw [if_pos hp, List.cons_append, ← hd]⟩
    · exact ⟨[], by rw [if_neg hp]; rfl⟩

theorem trimChars_idem (l : List Char) : trimChars (trimChars l) = trimChars l := by
  unfold trimChars
  set x := l.dropWhile isJsWs with hx
  set z := x.reverse.dropWhile isJsWs with hz
  have hstepA : z.reverse.dropWhile isJsWs = z.reverse := by
    obtain ⟨d, hd⟩ := dropWhile_append_ex isJsWs x.reverse
    rw [← hz] at hd
    cases hzr : z.reverse with
    | nil => rfl
    | cons c cs =>
      have hxc : x = c :: (cs ++ d.reverse) := by
        have := congrArg List.reverse hd
        rw [List.reverse_append, List.reverse_reverse, hzr] at this
        simpa using this
      have hc : isJsWs c = false :=
        dropWhile_head_not isJsWs l c (cs ++ d.reverse) (by rw [← hx]; exact hxc)
      rw [List.dropWhile_cons, if_neg (by simp [hc])]
  rw [hstepA, List.reverse_reverse, dropWhile_idem]

theorem jsTrim_idem (s : String) : jsTrim (jsTrim s) = jsTrim s := by
  unfold jsTrim
  exact congrArg String.mk (trimChars_idem s.data)

theorem jsTrim_empty : jsTrim "" = "" := rfl

theorem length_dropWhile_le_self (p : Char → Bool) (l : List Char) :
    (l.dropWhile p).length ≤ l.length := by
  obtain ⟨d, hd⟩ := dropWhile_append_ex p l
  conv_rhs => rw [hd]
  rw [List.length_append]
  omega

theorem trimChars_length_le (l : List Char) : (trimChars l).length ≤ l.length := by
  unfold trimChars
  calc ((l.dropWhile isJsWs).reverse.dropWhile isJsWs).reverse.length
      = ((l.dropWhile isJsWs).reverse.dropWhile isJsWs).length := List.length_reverse _
    _ ≤ (l.dropWhile isJsWs).reverse.length := length_dropWhile_le_self _ _
    _ = (l.dropWhile isJsWs).length := List.length_reverse _
    _ ≤ l.length := length_dropWhile_le_self _ _

theorem append_dropWhile_eq_of_length (p : Char → Bool) (l : List Char)
    (h : (l.dropWhile p).length = l.length) : l.dropWhile p = l := by
  obtain ⟨d, hd⟩ := dropWhile_append_ex p l
  have hlen : d.length + (l.dropWhile p).length = l.length := by
    conv_rhs => rw [hd]
    rw [List.length_append]
  have hdnil : d = [] := by
    have : d.length = 0 := by omega
    exact List.length_eq_zero.mp this
  rw [hdnil] at hd
  exact hd.symm

theorem trimChars_eq_of_length (l : List Char) (h : (trimChars l).length = l.length) :
    trimChars l = l := by
  unfold trimChars at h ⊢
  have h1 : ((l.dropWhile isJsWs).reverse.dropWhile isJsWs).length
      ≤ (l.dropWhile isJsWs).length := by
    calc ((l.dropWhile isJsWs).reverse.dropWhile isJsWs).length
        ≤ (l.dropWhile isJsWs).reverse.length := length_dropWhile_le_self _ _
      _ = (l.dropWhile isJsWs).length := List.length_reverse _
  have h2 : (l.dropWhile isJsWs).length ≤ l.length := length_dropWhile_le_self _ _
  have h0 : ((l.dropWhile isJsWs).reverse.dropWhile isJsWs).length = l.length := by
    rw [← List.length_reverse ((l.dropWhile isJsWs).reverse.dropWhile isJsWs)]
    exact h
  have hx : (l.dropWhile isJsWs).length = l.length := by omega
  have hxl : l.dropWhile isJsWs = l := append_dropWhile_eq_of_length isJsWs l hx
  have hy : ((l.dropWhile isJsWs).reverse.dropWhile isJsWs).length
      = (l.dropWhile isJsWs).reverse.length := by
    rw [List.length_reverse]; omega
  have hyl := append_dropWhile_eq_of_length isJsWs (l.dropWhile isJsWs).reverse hy
  rw [hxl] at hyl ⊢
  rw [hyl, List.reverse_reverse]

theorem jsTrim_length_le (s : String) : (jsTrim s).length ≤ s.length :=
  trimChars_length_le s.data

theorem jsTrim_eq_self_of_length (s : String) (h : (jsTrim s).length = s.length) :
    jsTrim s = s := by
  unfold jsTrim at h ⊢
  have := trimChars_eq_of_length s.data h
  rw [this]

theorem jsTrim_ne_empty_imp (s : String) (h : jsTrim s ≠ "") : s ≠ "" := by
  intro hs
  rw [hs] at h
  exact h jsTrim_empty

/-! ## Helper lemmas: digit strings and jsNumber -/

theorem parseDigitsNat_aux_lt (l : List Char) :
    ∀ a : Nat, (∀ c ∈ l, c.isDigit = true) →
      l.foldl (fun a c => 10 * a + digitToNat c) a < (a + 1) * 10 ^ l.length := by
  induction l with
  | nil => intro a _; simp only [List.foldl_nil, List.length_nil, pow_zero, Nat.mul_one]; exact Nat.lt_succ_self a
  | cons c t ih =>
    intro a h
    have hc : c.isDigit = true := h c (List.mem_cons_self c t)
    have hd : digitToNat c ≤ 9 := by
      unfold digitToNat
      simp [Char.isDigit] at hc
      obtain ⟨h1, h2⟩ := hc
      have h3 : c.val.toNat ≤ 57 := by exact_mod_cast h2
      have h4 : c.toNat = c.val.toNat := rfl
      omega
    have ht := ih (10 * a + digitToNat c) (fun x hx => h x (List.mem_cons_of_mem c hx))
    have hstep : (10 * a + digitToNat c + 1) * 10 ^ t.length ≤ (a + 1) * 10 ^ (t.length + 1) := by
      have h1 : 10 * a + digitToNat c + 1 ≤ (a + 1) * 10 := by omega
      calc (10 * a + digitToNat c + 1) * 10 ^ t.length
          ≤ ((a + 1) * 10) * 10 ^ t.length := Nat.mul_le_mul_right _ h1
        _ = (a + 1) * 10 ^ (t.length + 1) := by ring
    calc (c :: t).foldl (fun a c => 10 * a + digitToNat c) a
        = t.foldl (fun a c => 10 * a + digitToNat c) (10 * a + digitToNat c) := rfl
      _ < (10 * a + digitToNat c + 1) * 10 ^ t.length := ht
      _ ≤ (a + 1) * 10 ^ (t.length + 1) := hstep
      _ = (a + 1) * 10 ^ (c :: t).length := by simp

theorem parseDigitsNat_lt_pow (l : List Char) (h : ∀ c ∈ l, c.isDigit = true) :
    parseDigitsNat l < 10 ^ l.length := by
  have := parseDigitsNat_aux_lt l 0 h
  simpa [parseDigitsNat] using this

theorem jsNumber_trim (s : String) : jsNumber (jsTrim s) = jsNumber s := by
  unfold jsNumber
  rw [jsTrim_idem]

/-- What a positive jsNumber result says about the trimmed string: it is a
nonempty all-digit string whose value is the result. -/
theorem jsNumber_some_pos (s : String) (n : Int) (h : jsNumber s = some n)
    (hpos : (1000000000 : Int) < n) :
    (jsTrim s).data.all Char.isDigit = true ∧ n = (parseDigitsNat (jsTrim s).data : Int) := by
  unfold jsNumber at h
  by_cases he : jsTrim s = ""
  · rw [if_pos he] at h
    cases h
    omega
  · rw [if_neg he] at h
    by_cases hd : (jsTrim s).data.all Char.isDigit
    · rw [if_pos hd] at h
      cases h
      exact ⟨hd, rfl⟩
    · rw [if_neg hd] at h
      cases h

theorem digits_length_ge_of_value (l : List Char) (h : ∀ c ∈ l, c.isDigit = true)
    (b k : Nat) (hb : 10 ^ k ≤ b + 1) (hv : b < parseDigitsNat l) : k < l.length := by
  by_contra hk
  push_neg at hk
  have h1 : parseDigitsNat l < 10 ^ l.length := parseDigitsNat_lt_pow l h
  have h2 : (10 : Nat) ^ l.length ≤ 10 ^ k :=
    Nat.pow_le_pow_right (by omega) hk
  omega

/-! ## Helper lemmas: detectAndFixTimestamp -/

theorem tsDateOpt_trim_none (ctx : TsCtx) (v : String)
    (h : tsDateOpt ctx v (jsTrim v) = none) :
    tsDateOpt ctx (jsTrim v) (jsTrim v) = none := by
  unfold tsDateOpt at h ⊢
  by_cases hiso : isIso8601Shape (jsTrim v) = true
  · simpa [hiso] using h
  · rw [if_neg (by simp [hiso])] at h ⊢
    rw [jsNumber_trim]
    cases hn : jsNumber v with
    | none => simpa [hn] using h
    | some n =>
      rw [hn] at h
      dsimp only at h ⊢
      by_cases h9 : (1000000000 : Int) < n
      · rw [if_pos h9] at h ⊢
        obtain ⟨hdig, hval⟩ := jsNumber_some_pos v n hn h9
        have halld : ∀ c ∈ (jsTrim v).data, c.isDigit = true := by
          intro c hc
          exact List.all_eq_true.mp hdig c hc
        have hlen10 : 10 ≤ (jsTrim v).data.length := by
          have : (9 : Nat) < (jsTrim v).data.length := by
            apply digits_length_ge_of_value (jsTrim v).data halld 1000000000 9
            · norm_num
            · have : (1000000000 : Int) < (parseDigitsNat (jsTrim v).data : Int) := hval ▸ h9
              exact_mod_cast this
          omega
        by_cases hv10 : v.length = 10
        · have heq : jsTrim v = v := by
            apply jsTrim_eq_self_of_length
            have h1 : (jsTrim v).length ≤ v.length := jsTrim_length_le v
            have h2 : (jsTrim v).length = (jsTrim v).data.length := rfl
            have h3 : v.length = 10 := hv10
            omega
          rw [heq]
          exact h
        · rw [if_neg hv10] at h
          have hms : ¬ ((n * 1).natAbs ≤ maxDateMs) := by
            intro hc
            rw [if_pos hc] at h
            cases h
          have hlarge : maxDateMs < n.natAbs := by
            rw [Int.mul_one] at hms
            omega
          have hlen16 : 15 < (jsTrim v).data.length := by
            apply digits_length_ge_of_value (jsTrim v).data halld maxDateMs 15
            · unfold maxDateMs; norm_num
            · have hnn : (0 : Int) ≤ n := by omega
              have : n.natAbs = parseDigitsNat (jsTrim v).data := by
                have := congrArg Int.natAbs hval
                simpa using this
              omega
          have htl : ¬ ((jsTrim v).length = 10) := by
            have : (jsTrim v).length = (jsTrim v).data.length := rfl
            omega
          rw [if_neg htl]
          simp only [Int.mul_one] at hms ⊢
          rw [if_neg hms]
      · rw [if_neg h9] at h ⊢
        exact h

/-- C10 counterexample: detectAndFixTimestamp is not idempotent. A value of
whitespace only is not empty, fails every parse, and is returned trimmed,
which is the empty string; reapplying the function to that empty string
manufactures a fresh readable timestamp instead of returning it unchanged. -/
theorem detectAndFixTimestamp_not_idempotent_cex :
    detectAndFixTimestamp tsCtx0 " " = "" ∧
    detectAndFixTimestamp tsCtx0 (detectAndFixTimestamp tsCtx0 " ") =
      "Friday, Jun 06, 2025 10:30 AM" ∧
    (("Friday, Jun 06, 2025 10:30 AM" : String) == "") = false :=
  ⟨by decide, by decide, by decide⟩

/-- C10 (amended): detectAndFixTimestamp is idempotent on every input whose
trimmed form is nonempty, for any host context whose formatter emits
nonempty, already-trimmed strings in the readable format (as
Utilities.formatDate with the fixed pattern does). -/
theorem detectAndFixTimestamp_idem_on_nonblank (ctx : TsCtx)
    (hfmtFmt : ∀ t, isReadableTimestampFormat (ctx.fmt t) = true)
    (hfmtTrim : ∀ t, jsTrim (ctx.fmt t) = ctx.fmt t)
    (hfmtNe : ∀ t, ctx.fmt t ≠ "")
    (v : String) (hv : jsTrim v ≠ "") :
    detectAndFixTimestamp ctx (detectAndFixTimestamp ctx v) = detectAndFixTimestamp ctx v := by
  have hvne : v ≠ "" := jsTrim_ne_empty_imp v hv
  by_cases hr : isReadableTimestampFormat (jsTrim v) = true
  · have h1 : detectAndFixTimestamp ctx v = jsTrim v := by
      unfold detectAndFixTimestamp
      rw [if_neg hvne]
      dsimp only
      rw [if_pos hr]
    rw [h1]
    unfold detectAndFixTimestamp
    rw [if_neg hv]
    dsimp only
    rw [jsTrim_idem, if_pos hr]
  · have hmain : detectAndFixTimestamp ctx v =
        (match tsDateOpt ctx v (jsTrim v) with
         | none => jsTrim v
         | some t => ctx.fmt t) := by
      unfold detectAndFixTimestamp
      rw [if_neg hvne]
      dsimp only
      rw [if_neg hr]
    cases hd : tsDateOpt ctx v (jsTrim v) with
    | some t =>
      have h1 : detectAndFixTimestamp ctx v = ctx.fmt t := by rw [hmain, hd]
      rw [h1]
      unfold detectAndFixTimestamp
      rw [if_neg (hfmtNe t)]
      dsimp only
      rw [hfmtTrim t, if_pos (hfmtFmt t)]
    | none =>
      have h1 : detectAndFixTimestamp ctx v = jsTrim v := by rw [hmain, hd]
      rw [h1]
      unfold detectAndFixTimestamp
      rw [if_neg hv]
      dsimp only
      rw [jsTrim_idem, if_neg hr, tsDateOpt_trim_none ctx v hd]

/-- C10 witness: the amended idempotence theorem applied to the context
tsCtx0 and the nonblank input "hello". -/
theorem detectAndFixTimestamp_idem_on_nonblank_witness :
    (jsTrim "hello" == "") = false ∧
    detectAndFixTimestamp tsCtx0 (detectAndFixTimestamp tsCtx0 "hello") =
      detectAndFixTimestamp tsCtx0 "hello" :=
  ⟨by decide,
   detectAndFixTimestamp_idem_on_nonblank tsCtx0
     (fun _ =>
       (by decide : isReadableTimestampFormat "Friday, Jun 06, 2025 10:30 AM" = true))
     (fun _ => (by decide : jsTrim "Friday, Jun 06, 2025 10:30 AM" =
       "Friday, Jun 06, 2025 10:30 AM"))
     (fun _ => (by decide : ("Friday, Jun 06, 2025 10:30 AM" : String) ≠ ""))
     "hello" (by decide)⟩

/-- C1 counterexample: the validatePin entry point of access_requests.js
compares trimmed values with exact equality only, so the stored PIN "ABC7"
rejects the candidate "abc7" even though they are case-insensitively equal
and the spec property demands acceptance at every entry point. -/
theorem validatePin_case_insensitive_cex :
    validatePin (.ok [{ name := "PINs", grid := [["PIN"], ["ABC7"]] }]) "abc7" = false ∧
    specPinValid "abc7" ["ABC7"] :=
  ⟨by decide, by decide⟩

/-- C1 (amended): characterization of every PIN comparison loop in the
program. The validatePinFromSheet loop accepts exactly the nonempty stored
cells whose trimmed value matches the trimmed candidate exactly or
case-insensitively; the validatePin loop and the inline loop of the two
unnamed handlers accept on exact trimmed equality only (they differ just in
whether the emptiness of a cell is tested before or after trimming). -/
theorem pin_validation_loops_characterization (L : List String) (c : String) :
    (validatePinFromSheetLoop L c = true ↔
      ∃ p ∈ L, p ≠ "" ∧
        (jsTrim p = jsTrim c ∨ upperStr (jsTrim p) = upperStr (jsTrim c))) ∧
    (validatePinLoop L c = true ↔ ∃ p ∈ L, p ≠ "" ∧ jsTrim p = jsTrim c) ∧
    (pinLoopInline L c = true ↔ ∃ p ∈ L, jsTrim p ≠ "" ∧ jsTrim p = jsTrim c) := by
  refine ⟨?_, ?_, ?_⟩ <;>
    simp [validatePinFromSheetLoop, validatePinLoop, pinLoopInline,
      List.any_eq_true, Bool.and_eq_true, Bool.or_eq_true, bne_iff_ne, beq_iff_eq]

/-- C2: the failing duplicate detection evaluated at the failing input. The
same URL is submitted twice, ten seconds apart, with a valid PIN; the spec
duplicate predicate over the prior record (same URL, timestamps within the
five-minute cooldown) holds, yet the handler answers success both times,
because its scan parses cell index 1 of each stored row (the title cell of
the rows the same handler appends) as the row timestamp. -/
theorem urlLogger_dedup_misreads_timestamp_column :
    (doPostUrlLogger demoParse demoNowIso demoState0 ⟨false, .ok demoPayload1⟩).1 =
      .success ∧
    (doPostUrlLogger demoParse demoNowIso
        (doPostUrlLogger demoParse demoNowIso demoState0 ⟨false, .ok demoPayload1⟩).2
        ⟨false, .ok demoPayload2⟩).1 = .success ∧
    specDuplicateWithin demoParse
        [("https://example.com", "2025-06-06T10:00:00Z")]
        "https://example.com" "2025-06-06T10:00:10Z" = true :=
  ⟨by decide, by decide, by decide⟩

/-! ## Helper lemmas: the part_000 handler -/

theorem doPostUrlLogger_ok (parse : String → Option Int) (nowIso : String)
    (st : UrlLogState) (d : UrlLogPayload) (hs : st.sheetPresent = true) :
    doPostUrlLogger parse nowIso st ⟨false, .ok d⟩ = urlLoggerCore parse nowIso st d := by
  unfold doPostUrlLogger
  simp [hs]

theorem urlLoggerCore_invalid (parse : String → Option Int) (nowIso : String)
    (st : UrlLogState) (d : UrlLogPayload)
    (h : part0IsValidPin st.pinAccess (jsOr d.pin "Not Provided") = false) :
    urlLoggerCore parse nowIso st d =
      (.failure,
        { st with rows := st.rows ++
            [[jsOr d.url "N/A", jsOr d.title "Untitled Page", jsOr d.timestamp nowIso,
              jsOr d.userEmail "Unknown", jsOr d.userId "Unknown",
              jsOr d.pin "Not Provided", "Failed (Invalid PIN)"]] }) := by
  unfold urlLoggerCore
  dsimp only
  rw [h]
  simp

/-- C3: duplicate suppression never runs for an invalid PIN. Two
submissions of the same URL with PINs that fail validation are both
answered with the failure response (never duplicate), and both rows are
appended with the failed status. -/
theorem urlLogger_invalid_pin_no_dedup
    (parse : String → Option Int) (nowIso : String) (st : UrlLogState)
    (d1 d2 : UrlLogPayload)
    (hs : st.sheetPresent = true)
    (h1 : part0IsValidPin st.pinAccess (jsOr d1.pin "Not Provided") = false)
    (h2 : part0IsValidPin st.pinAccess (jsOr d2.pin "Not Provided") = false)
    (_hurl : d1.url = d2.url) :
    (doPostUrlLogger parse nowIso st ⟨false, .ok d1⟩).1 = .failure ∧
    (doPostUrlLogger parse nowIso (doPostUrlLogger parse nowIso st ⟨false, .ok d1⟩).2
      ⟨false, .ok d2⟩).1 = .failure ∧
    (doPostUrlLogger parse nowIso (doPostUrlLogger parse nowIso st ⟨false, .ok d1⟩).2
      ⟨false, .ok d2⟩).2.rows =
      st.rows ++
        [[jsOr d1.url "N/A", jsOr d1.title "Untitled Page", jsOr d1.timestamp nowIso,
          jsOr d1.userEmail "Unknown", jsOr d1.userId "Unknown", jsOr d1.pin "Not Provided",
          "Failed (Invalid PIN)"],
         [jsOr d2.url "N/A", jsOr d2.title "Untitled Page", jsOr d2.timestamp nowIso,
          jsOr d2.userEmail "Unknown", jsOr d2.userId "Unknown", jsOr d2.pin "Not Provided",
          "Failed (Invalid PIN)"]] := by
  have e1 := (doPostUrlLogger_ok parse nowIso st d1 hs).trans
    (urlLoggerCore_invalid parse nowIso st d1 h1)
  have e2 := (doPostUrlLogger_ok parse nowIso
      { st with rows := st.rows ++
          [[jsOr d1.url "N/A", jsOr d1.title "Untitled Page", jsOr d1.timestamp nowIso,
            jsOr d1.userEmail "Unknown", jsOr d1.userId "Unknown",
            jsOr d1.pin "Not Provided", "Failed (Invalid PIN)"]] } d2 hs).trans
    (urlLoggerCore_invalid parse nowIso _ d2 h2)
  rw [e1]
  dsimp only
  rw [e2]
  refine ⟨rfl, rfl, ?_⟩
  dsimp only
  rw [List.append_assoc]
  rfl

/-- C3 witness: the theorem applied to two identical submissions with the
unknown PIN 9999 against the demo store. -/
theorem urlLogger_invalid_pin_no_dedup_witness :
    part0IsValidPin demoState0.pinAccess (jsOr demoBadPayload.pin "Not Provided") = false ∧
    ((doPostUrlLogger demoParse demoNowIso demoState0 ⟨false, .ok demoBadPayload⟩).1 =
        .failure ∧
     (doPostUrlLogger demoParse demoNowIso
        (doPostUrlLogger demoParse demoNowIso demoState0 ⟨false, .ok demoBadPayload⟩).2
        ⟨false, .ok demoBadPayload⟩).1 = .failure ∧
     (doPostUrlLogger demoParse demoNowIso
        (doPostUrlLogger demoParse demoNowIso demoState0 ⟨false, .ok demoBadPayload⟩).2
        ⟨false, .ok demoBadPayload⟩).2.rows =
      demoState0.rows ++
        [[jsOr demoBadPayload.url "N/A", jsOr demoBadPayload.title "Untitled Page",
          jsOr demoBadPayload.timestamp demoNowIso, jsOr demoBadPayload.userEmail "Unknown",
          jsOr demoBadPayload.userId "Unknown", jsOr demoBadPayload.pin "Not Provided",
          "Failed (Invalid PIN)"],
         [jsOr demoBadPayload.url "N/A", jsOr demoBadPayload.title "Untitled Page",
          jsOr demoBadPayload.timestamp demoNowIso, jsOr demoBadPayload.userEmail "Unknown",
          jsOr demoBadPayload.userId "Unknown", jsOr demoBadPayload.pin "Not Provided",
          "Failed (Invalid PIN)"]]) :=
  ⟨by decide,
   urlLogger_invalid_pin_no_dedup demoParse demoNowIso demoState0
     demoBadPayload demoBadPayload rfl (by decide) (by decide) rfl⟩

/-- C7: PIN-store faults fail closed. When accessing the PIN store throws,
validatePin catches the error and returns false, and the part_000 handler
(whose inner try/catch leaves isValidPin false) answers the submission with
the failure response and still logs the row with the failed status,
rather than propagating the error. -/
theorem pin_store_failure_fails_closed
    (e : String) (parse : String → Option Int) (nowIso : String)
    (st : UrlLogState) (d : UrlLogPayload) (pin : String)
    (hacc : st.pinAccess = .error e) (hs : st.sheetPresent = true) :
    validatePin (.error e) pin = false ∧
    (doPostUrlLogger parse nowIso st ⟨false, .ok d⟩).1 = .failure ∧
    (doPostUrlLogger parse nowIso st ⟨false, .ok d⟩).2.rows =
      st.rows ++
        [[jsOr d.url "N/A", jsOr d.title "Untitled Page", jsOr d.timestamp nowIso,
          jsOr d.userEmail "Unknown", jsOr d.userId "Unknown", jsOr d.pin "Not Provided",
          "Failed (Invalid PIN)"]] := by
  have hvp : part0IsValidPin st.pinAccess (jsOr d.pin "Not Provided") = false := by
    rw [hacc]
    rfl
  have e1 := (doPostUrlLogger_ok parse nowIso st d hs).trans
    (urlLoggerCore_invalid parse nowIso st d hvp)
  refine ⟨?_, by rw [e1], by rw [e1]⟩
  unfold validatePin
  by_cases hp : pin = "" <;> simp [hp]

/-- C7 witness: the theorem applied to a state whose PIN store access
throws. -/
theorem pin_store_failure_fails_closed_witness :
    ({ sheetPresent := true, rows := [demoHeaderRow],
       pinAccess := .error "store unavailable" } : UrlLogState).pinAccess =
      .error "store unavailable" ∧
    (validatePin (.error "store unavailable") "1234" = false ∧
     (doPostUrlLogger demoParse demoNowIso
        { sheetPresent := true, rows := [demoHeaderRow],
          pinAccess := .error "store unavailable" } ⟨false, .ok demoPayload1⟩).1 =
        .failure ∧
     (doPostUrlLogger demoParse demoNowIso
        { sheetPresent := true, rows := [demoHeaderRow],
          pinAccess := .error "store unavailable" } ⟨false, .ok demoPayload1⟩).2.rows =
      ({ sheetPresent := true, rows := [demoHeaderRow],
         pinAccess := .error "store unavailable" } : UrlLogState).rows ++
        [[jsOr demoPayload1.url "N/A", jsOr demoPayload1.title "Untitled Page",
          jsOr demoPayload1.timestamp demoNowIso, jsOr demoPayload1.userEmail "Unknown",
          jsOr demoPayload1.userId "Unknown", jsOr demoPayload1.pin "Not Provided",
          "Failed (Invalid PIN)"]]) :=
  ⟨rfl,
   pin_store_failure_fails_closed "store unavailable" demoParse demoNowIso
     { sheetPresent := true, rows := [demoHeaderRow],
       pinAccess := .error "store unavailable" }
     demoPayload1 "1234" rfl rfl⟩

/-! ## Helper lemmas: response shapes -/

theorem urlLogBody_canonical (r : UrlLogResponse) (h : r ≠ .cors) :
    isCanonicalPostBody (urlLogBody r) := by
  cases r with
  | cors => exact absurd rfl h
  | success => exact Or.inl rfl
  | duplicate => exact Or.inr (Or.inl ⟨_, rfl⟩)
  | failure => exact Or.inr (Or.inr (Or.inl rfl))
  | error m => exact Or.inr (Or.inr (Or.inr ⟨m, rfl⟩))

theorem urlLoggerCore_fst_cases (parse : String → Option Int) (nowIso : String)
    (st : UrlLogState) (d : UrlLogPayload) :
    (urlLoggerCore parse nowIso st d).1 = .success ∨
    (urlLoggerCore parse nowIso st d).1 = .duplicate ∨
    (urlLoggerCore parse nowIso st d).1 = .failure := by
  unfold urlLoggerCore
  dsimp only
  split
  · split
    · right; left; rfl
    · left; rfl
  · right; right; rfl

theorem doPostUrlLogger_ne_cors (parse : String → Option Int) (nowIso : String)
    (st : UrlLogState) (req : UrlLogRequest) (hp : req.isPreflight = false) :
    (doPostUrlLogger parse nowIso st req).1 ≠ .cors := by
  obtain ⟨pf, body⟩ := req
  cases hp
  cases body with
  | error e => unfold doPostUrlLogger; simp
  | ok d =>
    by_cases hs : st.sheetPresent = true
    · rw [doPostUrlLogger_ok parse nowIso st d hs]
      rcases urlLoggerCore_fst_cases parse nowIso st d with h | h | h <;> rw [h] <;> simp
    · unfold doPostUrlLogger
      simp [hs]

/-- C4 (amended): every non-preflight POST to the part_000 URL-logging
handler yields exactly one of the four canonical JSON bodies, with any
caught exception surfaced as the error body; the pin_list.js handler
instead answers with a status/message/pin/timestamp body whose status is
success or error (or status/message/timestamp for a parse failure). -/
theorem post_response_shapes
    (parse : String → Option Int) (nowIso : String) (st : UrlLogState)
    (req : UrlLogRequest) (hp : req.isPreflight = false)
    (sheets : List SheetT) (plReq : PinListRequest) (hp2 : plReq.isPreflight = false) :
    isCanonicalPostBody (urlLogBody (doPostUrlLogger parse nowIso st req).1) ∧
    ((∃ m, pinListDoPost nowIso sheets plReq =
        [("status", "error"), ("message", m), ("timestamp", nowIso)]) ∨
     (∃ s m p, (s = "success" ∨ s = "error") ∧
        pinListDoPost nowIso sheets plReq =
          [("status", s), ("message", m), ("pin", p), ("timestamp", nowIso)])) := by
  constructor
  · exact urlLogBody_canonical _ (doPostUrlLogger_ne_cors parse nowIso st req hp)
  · obtain ⟨pf2, body2⟩ := plReq
    cases hp2
    unfold pinListDoPost
    dsimp only
    cases body2 with
    | error e => exact Or.inl ⟨_, rfl⟩
    | ok pinOpt =>
      refine Or.inr ⟨_, _, _, ?_, rfl⟩
      by_cases hv : (validatePinFromSheet (jsOr pinOpt "") sheets).isValid = true
      · left; rw [if_pos hv]
      · right; rw [if_neg hv]

/-- C4 witness: the response-shape theorem applied to the demo submission
and the demo PIN endpoint request. -/
theorem post_response_shapes_witness :
    ((⟨false, .ok demoPayload1⟩ : UrlLogRequest).isPreflight = false) ∧
    (isCanonicalPostBody
      (urlLogBody (doPostUrlLogger demoParse demoNowIso demoState0
        ⟨false, .ok demoPayload1⟩).1) ∧
     ((∃ m, pinListDoPost demoNowIso demoStoreWithPins ⟨false, .ok (some "123456")⟩ =
         [("status", "error"), ("message", m), ("timestamp", demoNowIso)]) ∨
      (∃ s m p, (s = "success" ∨ s = "error") ∧
         pinListDoPost demoNowIso demoStoreWithPins ⟨false, .ok (some "123456")⟩ =
           [("status", s), ("message", m), ("pin", p), ("timestamp", demoNowIso)]))) :=
  ⟨rfl,
   post_response_shapes demoParse demoNowIso demoState0 ⟨false, .ok demoPayload1⟩ rfl
     demoStoreWithPins ⟨false, .ok (some "123456")⟩ rfl⟩

/-- C4 counterexample: the pin_list.js doPost answers a valid PIN with a
body carrying status, message, pin, and timestamp keys, which is none of the
four canonical JSON bodies (and an invalid PIN there reports status error,
not failure). -/
theorem pinList_doPost_body_not_canonical_cex :
    pinListDoPost "2025-06-06T17:22:23.598Z" demoStoreWithPins ⟨false, .ok (some "123456")⟩ =
      [("status", "success"), ("message", "PIN validated successfully."),
       ("pin", "123456"), ("timestamp", "2025-06-06T17:22:23.598Z")] ∧
    isCanonicalPostBodyB
      (pinListDoPost "2025-06-06T17:22:23.598Z" demoStoreWithPins
        ⟨false, .ok (some "123456")⟩) = false :=
  ⟨by decide, by decide⟩

/-- C9: once a non-preflight POST reaches the logging step, both URL-logging
handlers append exactly one data row whatever the outcome (success,
duplicate, or invalid PIN); the second variant may additionally insert its
header row at the top, but the data append is unconditional. -/
theorem post_appends_exactly_one_row
    (parse : String → Option Int) (fmtPst : Option Int → String) (nowIso : String)
    (st stB : UrlLogState) (d dB : UrlLogPayload)
    (hs : st.sheetPresent = true) (hsB : stB.sheetPresent = true) :
    (∃ row, (doPostUrlLogger parse nowIso st ⟨false, .ok d⟩).2.rows = st.rows ++ [row]) ∧
    (∃ rowB, (doPostUrlLoggerB parse fmtPst nowIso stB ⟨false, .ok dB⟩).2.rows =
      (if headersMatchCi (padTake (stB.rows.headD []) 6) variantHeaders then stB.rows
       else variantHeaders :: stB.rows) ++ [rowB]) := by
  constructor
  · rw [doPostUrlLogger_ok parse nowIso st d hs]
    unfold urlLoggerCore
    dsimp only
    repeat' split
    all_goals exact ⟨_, rfl⟩
  · unfold doPostUrlLoggerB
    dsimp only
    rw [if_pos hsB]
    repeat' split
    all_goals first
      | exact ⟨_, rfl⟩
      | simp_all

/-- C9 witness: the append theorem at the demo states and submissions. -/
theorem post_appends_exactly_one_row_witness :
    demoState0.sheetPresent = true ∧
    ((∃ row, (doPostUrlLogger demoParse demoNowIso demoState0
        ⟨false, .ok demoPayload1⟩).2.rows = demoState0.rows ++ [row]) ∧
     (∃ rowB, (doPostUrlLoggerB demoParse demoFmtPst demoNowIso demoStateB
        ⟨false, .ok demoPayload1⟩).2.rows =
        (if headersMatchCi (padTake (demoStateB.rows.headD []) 6) variantHeaders
         then demoStateB.rows else variantHeaders :: demoStateB.rows) ++ [rowB])) :=
  ⟨rfl,
   post_appends_exactly_one_row demoParse demoFmtPst demoNowIso demoState0 demoStateB
     demoPayload1 demoPayload1 rfl rfl⟩

/-! ## Helper lemmas: logAccessRequest -/

theorem autoFix_head (ctx : TsCtx) (rows : List (List String)) :
    (autoFixTimestampFormats ctx rows).head? = rows.head? := by
  cases rows <;> rfl

theorem autoFix_append_getLast (ctx : TsCtx) (l : List (List String)) (x : List String) :
    (autoFixTimestampFormats ctx (l ++ [x])).getLast? =
      some (match l with
            | [] => x
            | _ :: _ => detectAndFixTimestamp ctx (x.getD 0 "") :: x.drop 1) := by
  cases l with
  | nil => rfl
  | cons h t =>
    show (autoFixTimestampFormats ctx (h :: (t ++ [x]))).getLast? = _
    unfold autoFixTimestampFormats
    dsimp only
    rw [List.map_append]
    dsimp only [List.map_cons, List.map_nil]
    rw [show h :: (t.map (fun r => detectAndFixTimestamp ctx (r.getD 0 "") :: r.drop 1) ++
          [detectAndFixTimestamp ctx (x.getD 0 "") :: x.drop 1]) =
        (h :: t.map (fun r => detectAndFixTimestamp ctx (r.getD 0 "") :: r.drop 1)) ++
          [detectAndFixTimestamp ctx (x.getD 0 "") :: x.drop 1] from rfl]
    rw [List.getLast?_concat]

theorem append_replicate_getLast (l : List String) (k : Nat) (hk : 0 < k) :
    (l ++ List.replicate k ("" : String)).getLast? = some "" := by
  cases k with
  | zero => omega
  | succ n =>
    rw [List.replicate_succ' n ("" : String), ← List.append_assoc, List.getLast?_concat]

theorem maxRowLen_cons (r : List String) (t : List (List String)) :
    maxRowLen (r :: t) = max r.length (maxRowLen t) := rfl

/-- C5 (amended): the Access Log Writer appends one row whose 8 cells are
the record fields in the canonical order timestamp, pin, userEmail, title,
url followed by the three PENDING placeholders, and reading the last row
back returns exactly those values, provided the record has a nonempty
timestamp and pin (otherwise the writer substitutes defaults) and the
timestamp survives the repair pass unchanged (as every timestamp already in
the canonical readable format does). The unnamed handler appends a
different, 7-cell row, refuting the claim for that append site. -/
theorem logAccessRequest_roundtrip (ctx : TsCtx) (rows : List (List String))
    (rd : AccessRequestData) (hts : rd.timestamp ≠ "") (hpin : rd.pin ≠ "")
    (hfix : detectAndFixTimestamp ctx rd.timestamp = rd.timestamp) :
    (logAccessRequest ctx rows rd).getLast? =
      some [rd.timestamp, rd.pin, rd.userEmail, rd.title, rd.url,
            "PENDING", "PENDING", "PENDING"] := by
  unfold logAccessRequest
  dsimp only
  rw [autoFix_append_getLast]
  have hrow : jsOrS rd.timestamp ctx.nowReadable = rd.timestamp := by simp [jsOrS, hts]
  have hrow2 : jsOrS rd.pin "NO PIN" = rd.pin := by simp [jsOrS, hpin]
  rw [hrow, hrow2]
  split
  · rfl
  · simp [hfix]

/-- C5 witness: the round-trip theorem at a record whose timestamp is
already in the canonical readable format. -/
theorem logAccessRequest_roundtrip_witness :
    (demoAccessRequestData.timestamp == "") = false ∧
    detectAndFixTimestamp tsCtx0 demoAccessRequestData.timestamp =
      demoAccessRequestData.timestamp ∧
    (logAccessRequest tsCtx0 [] demoAccessRequestData).getLast? =
      some [demoAccessRequestData.timestamp, demoAccessRequestData.pin,
            demoAccessRequestData.userEmail, demoAccessRequestData.title,
            demoAccessRequestData.url, "PENDING", "PENDING", "PENDING"] :=
  ⟨by decide, by decide,
   logAccessRequest_roundtrip tsCtx0 [] demoAccessRequestData
     (by decide) (by decide) (by decide)⟩

/-- C5 counterexample: the unnamed URL-logging handler appends its record as
7 cells in the order url, title, timestamp, userEmail, userId, pin, status;
the first cell is the URL, not the timestamp, and there are not 8 cells, so
the claimed canonical column order does not hold at this append site. -/
theorem urlLogger_append_not_canonical_cex :
    (doPostUrlLogger demoParse demoNowIso demoState0
        ⟨false, .ok demoPayload1⟩).2.rows.getLast? =
      some ["https://example.com", "Example Site", "2025-06-06T10:00:00Z",
            "a@b.com", "u1", "1234", "Success (Valid PIN)"] ∧
    (["https://example.com", "Example Site", "2025-06-06T10:00:00Z",
      "a@b.com", "u1", "1234", "Success (Valid PIN)"] : List String).length = 7 ∧
    ((["https://example.com", "Example Site", "2025-06-06T10:00:00Z",
       "a@b.com", "u1", "1234", "Success (Valid PIN)"].getD 0 "" ==
        "2025-06-06T10:00:00Z") = false) :=
  ⟨by decide, by decide, by decide⟩

/-- C6 (amended): after every run of logAccessRequest, row 1 of the
access-request sheet equals the canonical 8-entry header list — an already
canonical header row is kept, anything else is rewritten (clearing columns
beyond H) before the data row is appended. The second doPost variant
enforces its own different 6-entry header list instead, refuting the claim
for that writer. -/
theorem logAccessRequest_header_invariant (ctx : TsCtx) (rows : List (List String))
    (rd : AccessRequestData) :
    (logAccessRequest ctx rows rd).head? = some accessExpectedHeaders := by
  unfold logAccessRequest
  dsimp only
  rw [autoFix_head]
  split
  · -- current headers were read from row 1
    split
    · -- mismatch reported: row 1 is rewritten to the canonical headers
      cases hcl : (if 8 < maxRowLen rows then rows.map (fun r => r.take 8) else rows) with
      | nil => rfl
      | cons r0 t => rfl
    · -- match reported: row 1 must already be the canonical headers
      rename_i hcond hu
      rw [Bool.or_eq_true, not_or] at hu
      obtain ⟨hne, hcol⟩ := hu
      have hpadeq : padTake (rows.headD []) (min (maxRowLen rows) 8) =
          accessExpectedHeaders := by
        by_contra hc
        exact hne (bne_iff_ne.mpr hc)
      have hcol8 : maxRowLen rows ≤ 8 := by
        by_contra hgt
        exact hcol (by simpa using Nat.lt_of_not_le hgt)
      cases rows with
      | nil => simp at hcond
      | cons r0 t =>
        have hmin : min (maxRowLen (r0 :: t)) 8 = maxRowLen (r0 :: t) :=
          Nat.min_eq_left hcol8
        rw [hmin] at hpadeq
        have hr0le : r0.length ≤ maxRowLen (r0 :: t) := by
          rw [maxRowLen_cons]; exact Nat.le_max_left _ _
        unfold padTake at hpadeq
        rw [show (r0 :: t).headD [] = r0 from rfl] at hpadeq
        rw [List.take_of_length_le hr0le] at hpadeq
        by_cases hk : 0 < maxRowLen (r0 :: t) - r0.length
        · exfalso
          have hlast := congrArg List.getLast? hpadeq
          rw [append_replicate_getLast r0 _ hk] at hlast
          have hcontra : some ("" : String) = some "Access Link" := by
            rw [hlast]; rfl
          simp at hcontra
        · have hk0 : maxRowLen (r0 :: t) - r0.length = 0 := by omega
          rw [hk0] at hpadeq
          simp only [List.replicate_zero, List.append_nil] at hpadeq
          show some r0 = some accessExpectedHeaders
          rw [hpadeq]
  · -- no readable headers (empty sheet): a mismatch is always reported
    split
    · cases hcl : (if 8 < maxRowLen rows then rows.map (fun r => r.take 8) else rows) with
      | nil => rfl
      | cons r0 t => rfl
    · rename_i hcond hu
      exfalso
      apply hu
      rw [Bool.or_eq_true]
      left
      decide

/-- C6 counterexample: a run of the second URL-logging doPost variant
leaves row 1 equal to its own 6-entry header list, which is not the
canonical 8-entry header list of the claim. -/
theorem variantB_header_not_canonical_cex :
    (doPostUrlLoggerB demoParse demoFmtPst demoNowIso demoStateB
        ⟨false, .ok demoPayload1⟩).2.rows.head? = some variantHeaders ∧
    (variantHeaders == accessExpectedHeaders) = false :=
  ⟨by decide, by decide⟩

/-- C8 counterexample: PIN validation is not read-only. On a store without
a PIN-qualifying sheet, validatePinFromSheet creates a default PINs sheet
holding three example PINs, mutating the PIN spreadsheet, and then reports
the example PIN 123456 as valid against a store that held no PIN at all. -/
theorem validatePinFromSheet_mutates_store_cex :
    (validatePinFromSheet "123456" demoStoreNoPin).isValid = true ∧
    (validatePinFromSheet "123456" demoStoreNoPin).sheets =
      demoStoreNoPin ++ [defaultPinSheet] ∧
    ((demoStoreNoPin ++ [defaultPinSheet]) == demoStoreNoPin) = false :=
  ⟨by decide, by decide, by decide⟩

/-- C8 (amended): whenever a PIN sheet is found, validatePinFromSheet leaves
the spreadsheet unchanged; only the no-sheet-found path creates the default
sheet. (validatePin and the inline loops never write at all.) -/
theorem validatePinFromSheet_frame (pin : String) (sheets : List SheetT)
    (h : (findPinSheet sheets).isSome = true) :
    (validatePinFromSheet pin sheets).sheets = sheets := by
  unfold validatePinFromSheet getOrCreatePinSheet
  cases hf : findPinSheet sheets with
  | none => rw [hf] at h; cases h
  | some s =>
    dsimp only
    split
    · rfl
    · split
      · rfl
      · rfl

/-- C8 witness: the frame theorem at a store whose PINs sheet is found. -/
theorem validatePinFromSheet_frame_witness :
    (findPinSheet demoStoreWithPins).isSome = true ∧
    (validatePinFromSheet "123456" demoStoreWithPins).sheets = demoStoreWithPins :=
  ⟨by decide, validatePinFromSheet_frame "123456" demoStoreWithPins (by decide)⟩
